import Mathlib

/-!
Shallow embedding of src/tasks/dotdox/processors.js.

The JavaScript program builds a documentation index from parsed comments.
A CommentContext interprets a tag list into a typed entity; a DocContext
stores entities in name-keyed maps (classes, modules, functions, constants)
plus a misc list, and resolves dotted parent references (getClass) either
immediately or by a one-shot pubsub subscription fired when the parent is
later stored.  The promise callback `.then(cls => cls.addChild(this))` runs
as a microtask after the synchronous ingestion loop; we model it with an
explicit microtask queue drained after processSource.

Entities are mutable objects in JavaScript; we model them as records in an
arena (a list indexed by allocation order) with explicit state passing.
-/

namespace Dotdox

/-- One dox tag: `tag.type` selects the switch case; `string`, `types` and
`parent` are the payload fields the code reads. -/
structure Tag where
  type : String
  string : String := ""
  types : List String := []
  parent : String := ""
  deriving Repr, DecidableEq

/-- One parsed comment as consumed by the CommentContext constructor. -/
structure Comment where
  tags : List Tag := []
  description : String := ""
  body : String := ""
  content : String := ""
  code : String := ""
  isPrivate : Bool := false
  deriving Repr, DecidableEq

/-- The CommentContext record: kind flags, name, metadata, and the
parent/children relationship fields (`_parent`, `_children` in the source;
children hold arena indices). -/
structure Entity where
  isClass : Bool := false
  isModule : Bool := false
  isFunction : Bool := false
  isConstant : Bool := false
  isIgnored : Bool := false
  isEnum : Bool := false
  isPrivate : Bool := false
  name : String := ""
  types : List String := []
  see : Option Tag := none
  value : String := ""
  parentName : String := ""
  params : List Tag := []
  returns : Option Tag := none
  description : String := ""
  body : String := ""
  content : String := ""
  code : String := ""
  parent : Option Nat := none
  children : List Nat := []
  deriving Repr, DecidableEq

/-- A pending one-shot subscription registered by getClass when the first
path segment is not yet known: topic `resolve:<className>`, the first
segment (for the log prefix), the remaining segments to walk, and the arena
index of the dependent child entity to attach on resolution. -/
structure Sub where
  topic : String
  firstName : String
  parts : List String
  childId : Nat
  deriving Repr, DecidableEq

/-- The DocContext plus the ambient execution state: pubsub subscriptions,
the promise-callback microtask queue (pairs of resolved target and
dependent child), and console output. -/
structure DocState where
  verbose : Bool := false
  arena : List Entity := []
  classes : List (String × Nat) := []
  modules : List (String × Nat) := []
  functions : List (String × Nat) := []
  constants : List (String × Nat) := []
  misc : List Nat := []
  subs : List Sub := []
  microtasks : List (Nat × Nat) := []
  warnings : List String := []
  logs : List String := []
  deriving Repr, DecidableEq

/-- Entity at an arena index (entities are always accessed in bounds). -/
def entAt (arena : List Entity) (i : Nat) : Entity :=
  (arena.get? i).getD {}

/-- Name of the entity at an arena index. -/
def entName (arena : List Entity) (i : Nat) : String :=
  (entAt arena i).name

/-- Own-entry lookup in a category map (association list, entries added
only when the key is absent).  This models a JavaScript property read
`m[k]` on the domain where the key is an own property or no Object
prototype member shadows it; the `in` test of the store guards, which
always consults the prototype chain, is modelled separately by jsIn. -/
def mapFind (m : List (String × Nat)) (k : String) : Option Nat :=
  (m.find? (fun e => e.fst = k)).map Prod.snd

/-- The property names every plain object inherits from Object.prototype:
for any of these k and any object m, the JavaScript test `k in m` is true
even when m has no own entries. -/
def objectPrototypeKeys : List String :=
  ["constructor", "hasOwnProperty", "isPrototypeOf", "propertyIsEnumerable",
   "toLocaleString", "toString", "valueOf", "__defineGetter__",
   "__defineSetter__", "__lookupGetter__", "__lookupSetter__", "__proto__"]

/-- The JavaScript `k in m` test used by the processSource store guards:
true when k is an own entry of the map or a member inherited from
Object.prototype (so names such as toString test as present in an empty
map and are never stored). -/
def jsIn (k : String) (m : List (String × Nat)) : Bool :=
  (mapFind m k).isSome || decide (k ∈ objectPrototypeKeys)

/-- JavaScript `className.split(".")`: splits on every dot, keeping empty
segments; never returns an empty list. -/
def splitNameAux : List Char → List Char → List String
  | acc, [] => [String.mk acc.reverse]
  | acc, c :: cs =>
    if c = '.' then String.mk acc.reverse :: splitNameAux [] cs
    else splitNameAux (c :: acc) cs

/-- `String.split` on dots as used by getClass. -/
def splitName (s : String) : List String :=
  splitNameAux [] s.toList

/-- Update the entity at an arena index in place. -/
def setEnt (st : DocState) (i : Nat) (f : Entity → Entity) : DocState :=
  { st with arena := st.arena.set i (f (entAt st.arena i)) }

/-- The reducer of CommentContext.prototype.getFirstChild:
`prev && prev.name === name ? prev : current && current.name === name ?
current : undefined` (both null and undefined are modelled as `none`). -/
def childMatch (arena : List Entity) (nm : String) (acc : Option Nat) (cur : Nat) :
    Option Nat :=
  match acc with
  | some p =>
    if entName arena p = nm then some p
    else if entName arena cur = nm then some cur
    else none
  | none => if entName arena cur = nm then some cur else none

/-- CommentContext.prototype.getFirstChild: reduce over `_children` with
initial accumulator null. -/
def getFirstChild (arena : List Entity) (i : Nat) (nm : String) : Option Nat :=
  (entAt arena i).children.foldl (childMatch arena nm) none

/-- CommentContext.prototype.getLastChild: reduceRight over `_children`,
i.e. the same reduce over the reversed list. -/
def getLastChild (arena : List Entity) (i : Nat) (nm : String) : Option Nat :=
  (entAt arena i).children.reverse.foldl (childMatch arena nm) none

/-- CommentContext.prototype.getChildren: filter `_children` by name. -/
def getChildren (arena : List Entity) (i : Nat) (nm : String) : List Nat :=
  (entAt arena i).children.filter (fun c => entName arena c = nm)

/-- CommentContext.prototype.addChild: push the child onto the parent
children list.  The second statement of the source, child._parent = this,
assigns to a property defined by Object.defineProperties with only a
value descriptor, hence non-writable; the file is sloppy-mode JavaScript,
so that assignment silently does nothing and the parent back-reference of
the Entity record is never written (it stays at its constructor value
none). -/
def addChild (arena : List Entity) (p c : Nat) : List Entity :=
  arena.set p
    { entAt arena p with children := (entAt arena p).children ++ [c] }

/-- The walkParts closure inside DocContext.prototype.getClass: walk the
remaining dotted segments via getFirstChild, accumulating the prefix `tmp`
for the TODO log; returns the resolved index, or `none` plus the log line
when a segment is missing (the commented-out re-subscribe is absent, so a
missing segment produces no subscription). -/
def walkPartsAux (arena : List Entity) (tmp : List String) :
    Nat → List String → Option Nat × List String
  | i, [] => (some i, [])
  | i, p :: ps =>
    let tmp2 := tmp ++ [p]
    match getFirstChild arena i p with
    | none => (none, ["* TODO: waiting for: " ++ String.intercalate "." tmp2])
    | some j => walkPartsAux arena tmp2 j ps

/-- A successful walk calls `resolve(ctx)`, whose registered promise
callback (`cls.addChild(this)`) is queued as a microtask; a failed walk
only logs. -/
def resolveWalk (st : DocState) (nm : String) (i : Nat) (rest : List String)
    (childId : Nat) : DocState :=
  match walkPartsAux st.arena [nm] i rest with
  | (some tgt, _) => { st with microtasks := st.microtasks ++ [(tgt, childId)] }
  | (none, ls) => { st with logs := st.logs ++ ls }

/-- DocContext.prototype.getClass invoked from a memberOf tag of the entity
at `childId`: split the name, look the first segment up in classes then
modules, walk immediately when found, otherwise subscribe once to
`resolve:<className>`.  The first-segment read `classes[name] ||
modules[name]` is a property read, modelled by the own-entry lookup
mapFind; it is faithful whenever the name is stored as an own entry (own
properties shadow the prototype) or collides with no Object prototype
member — the theorems below stay on that domain, by a mapFind hypothesis
or by excluding objectPrototypeKeys.  Outside it the source reads the
inherited Object.prototype function and later throws a TypeError inside
the promise machinery, attaching nothing. -/
def getClass (st : DocState) (className : String) (childId : Nat) : DocState :=
  match splitName className with
  | [] => st
  | nm :: rest =>
    match mapFind st.classes nm with
    | some i => resolveWalk st nm i rest childId
    | none =>
      match mapFind st.modules nm with
      | some i => resolveWalk st nm i rest childId
      | none =>
        { st with subs := st.subs ++ [⟨"resolve:" ++ className, nm, rest, childId⟩] }

/-- Modelled from the spec: pubsub.js one-shot delivery (the library is an
external collaborator; §3 and §5 of the spec fix its interface).  Firing a
subscription runs the registered getClass callback: walk the remaining
segments from the published entity. -/
def fireSub (st : DocState) (ctxId : Nat) (s : Sub) : DocState :=
  resolveWalk st s.firstName ctxId s.parts s.childId

/-- Modelled from the spec: pubsub.publish delivers to every current
one-shot subscriber of the topic in subscription order and clears them; a
topic never published again does not replay. -/
def publish (st : DocState) (topic : String) (ctxId : Nat) : DocState :=
  let fired := st.subs.filter (fun s => s.topic = topic)
  let st1 := { st with subs := st.subs.filter (fun s => ¬ s.topic = topic) }
  fired.foldl (fun s sub => fireSub s ctxId sub) st1

/-- One case of the switch in CommentContext.prototype.processTags, acting
on the entity at arena index `i` (the JavaScript switch has no
fall-through, so an if-chain on `tag.type` is equivalent). -/
def processTag (st : DocState) (i : Nat) (t : Tag) : DocState :=
  if t.type = "class" then setEnt st i (fun e => { e with isClass := true })
  else if t.type = "module" then setEnt st i (fun e => { e with isModule := true })
  else if t.type = "function" then setEnt st i (fun e => { e with isFunction := true })
  else if t.type = "constant" then setEnt st i (fun e => { e with isConstant := true })
  else if t.type = "enum" then setEnt st i (fun e => { e with isEnum := true })
  else if t.type = "ignore" then setEnt st i (fun e => { e with isIgnored := true })
  else if t.type = "private" then setEnt st i (fun e => { e with isPrivate := true })
  else if t.type = "name" then setEnt st i (fun e => { e with name := t.string })
  else if t.type = "type" then
    setEnt st i (fun e => { e with types := e.types ++ t.types })
  else if t.type = "see" then setEnt st i (fun e => { e with see := some t })
  else if t.type = "default" then setEnt st i (fun e => { e with value := t.string })
  else if t.type = "param" then
    setEnt st i (fun e => { e with params := e.params ++ [t] })
  else if t.type = "return" then setEnt st i (fun e => { e with returns := some t })
  else if t.type = "memberOf" then
    getClass (setEnt st i (fun e => { e with parentName := t.parent })) t.parent i
  else if t.type = "kind" then
    if t.string = "class" then setEnt st i (fun e => { e with isClass := true })
    else if t.string = "function" then
      setEnt st i (fun e => { e with isFunction := true })
    else if t.string = "constant" then
      setEnt st i (fun e => { e with isConstant := true })
    else if t.string = "enum" then setEnt st i (fun e => { e with isEnum := true })
    else { st with warnings := st.warnings ++ ["Unrecognized kind: " ++ t.string] }
  else { st with warnings := st.warnings ++ ["Unrecognized tag: " ++ t.type] }

/-- CommentContext.prototype.processTags: forEach over the tag list. -/
def processTags (st : DocState) (i : Nat) (ts : List Tag) : DocState :=
  ts.foldl (fun s t => processTag s i t) st

/-- The CommentContext constructor before processTags runs: flags false,
strings empty, lists empty, fields copied from the comment. -/
def initEntity (c : Comment) : Entity :=
  { isPrivate := c.isPrivate, description := c.description, body := c.body,
    content := c.content, code := c.code }

/-- The body of the forEach in DocContext.prototype.processSource for one
comment: construct the CommentContext (running its tags), then drop it if
ignored, else classify into the first matching category, storing only when
the `in` test fails (jsIn: own entries plus the Object prototype chain, so
a prototype-colliding name is never stored), publishing a resolve event for
classes and modules, and falling through to misc otherwise. -/
def processComment (st : DocState) (c : Comment) : DocState :=
  let i := st.arena.length
  let st1 := { st with arena := st.arena ++ [initEntity c] }
  let st2 := processTags st1 i c.tags
  let e := entAt st2.arena i
  if e.isIgnored then st2
  else if e.isClass then
    if jsIn e.name st2.classes then st2
    else
      let full := (if e.parentName = "" then "" else e.parentName ++ ".") ++ e.name
      publish { st2 with classes := st2.classes ++ [(e.name, i)] }
        ("resolve:" ++ full) i
  else if e.isModule then
    if jsIn e.name st2.modules then st2
    else
      let full := (if e.parentName = "" then "" else e.parentName ++ ".") ++ e.name
      publish { st2 with modules := st2.modules ++ [(e.name, i)] }
        ("resolve:" ++ full) i
  else if e.isFunction then
    if jsIn e.name st2.functions then st2
    else { st2 with functions := st2.functions ++ [(e.name, i)] }
  else if e.isConstant || e.isEnum then
    if jsIn e.name st2.constants then st2
    else { st2 with constants := st2.constants ++ [(e.name, i)] }
  else
    let st3 :=
      if st2.verbose then
        { st2 with warnings := st2.warnings ++ ["Unrecognized comment kind"] }
      else st2
    { st3 with misc := st3.misc ++ [i] }

/-- DocContext.prototype.processSource: forEach over the comment list. -/
def processSource (st : DocState) (cs : List Comment) : DocState :=
  cs.foldl processComment st

/-- Drain the promise microtask queue after the synchronous ingestion loop:
each entry runs `cls.addChild(child)` in resolution order (addChild queues
no further microtasks, so one pass empties the queue). -/
def runTasks (st : DocState) : DocState :=
  { st with
    arena := st.microtasks.foldl (fun a pc => addChild a pc.1 pc.2) st.arena,
    microtasks := [] }

/-- Process a comment stream from the empty DocContext and run all pending
promise callbacks to quiescence. -/
def runDoc (cs : List Comment) : DocState :=
  runTasks (processSource {} cs)

/-- A bare kind tag such as `@class` or `@function`. -/
def kindTag (k : String) : Tag := { type := k }

/-- A `@name n` tag. -/
def nameTag (n : String) : Tag := { type := "name", string := n }

/-- A `@memberOf p` tag. -/
def memberOfTag (p : String) : Tag := { type := "memberOf", parent := p }

/-- A comment declaring kind `k` and name `n` with description `d`. -/
def catComment (k n d : String) : Comment :=
  { tags := [kindTag k, nameTag n], description := d }

/-- A function comment named `f` declaring `memberOf p`. -/
def fnMemberComment (f p : String) : Comment :=
  { tags := [kindTag "function", nameTag f, memberOfTag p] }

/-- A plain function comment named `f`. -/
def fnComment (f : String) : Comment :=
  { tags := [kindTag "function", nameTag f] }

/-- The tag kinds the processTags switch recognizes. -/
def recognizedTags : List String :=
  ["class", "module", "function", "constant", "enum", "ignore", "private",
   "name", "type", "see", "default", "param", "return", "memberOf", "kind"]

/-! ### Frame and characterization lemmas -/

theorem entAt_set_self (arena : List Entity) (i : Nat) (e : Entity)
    (h : i < arena.length) : entAt (arena.set i e) i = e := by
  simp [entAt, List.getElem?_set_eq_of_lt e h]

theorem entAt_concat_length (arena : List Entity) (e : Entity) :
    entAt (arena ++ [e]) arena.length = e := by
  simp [entAt, List.getElem?_concat_length]

theorem resolveWalk_frame (st : DocState) (nm : String) (i : Nat)
    (rest : List String) (c : Nat) :
    (resolveWalk st nm i rest c).arena = st.arena ∧
    (resolveWalk st nm i rest c).classes = st.classes ∧
    (resolveWalk st nm i rest c).modules = st.modules ∧
    (resolveWalk st nm i rest c).functions = st.functions ∧
    (resolveWalk st nm i rest c).constants = st.constants ∧
    (resolveWalk st nm i rest c).misc = st.misc ∧
    (resolveWalk st nm i rest c).subs = st.subs ∧
    (resolveWalk st nm i rest c).warnings = st.warnings ∧
    (resolveWalk st nm i rest c).verbose = st.verbose := by
  unfold resolveWalk
  split <;> exact ⟨rfl, rfl, rfl, rfl, rfl, rfl, rfl, rfl, rfl⟩

theorem getClass_frame (st : DocState) (s : String) (c : Nat) :
    (getClass st s c).arena = st.arena ∧
    (getClass st s c).classes = st.classes ∧
    (getClass st s c).modules = st.modules ∧
    (getClass st s c).functions = st.functions ∧
    (getClass st s c).constants = st.constants ∧
    (getClass st s c).misc = st.misc ∧
    (getClass st s c).warnings = st.warnings ∧
    (getClass st s c).verbose = st.verbose := by
  unfold getClass
  split
  · exact ⟨rfl, rfl, rfl, rfl, rfl, rfl, rfl, rfl⟩
  · split
    · obtain ⟨h1, h2, h3, h4, h5, h6, _, h8, h9⟩ := resolveWalk_frame st _ _ _ c
      exact ⟨h1, h2, h3, h4, h5, h6, h8, h9⟩
    · split
      · obtain ⟨h1, h2, h3, h4, h5, h6, _, h8, h9⟩ := resolveWalk_frame st _ _ _ c
        exact ⟨h1, h2, h3, h4, h5, h6, h8, h9⟩
      · exact ⟨rfl, rfl, rfl, rfl, rfl, rfl, rfl, rfl⟩

theorem getClass_arena (st : DocState) (s : String) (c : Nat) :
    (getClass st s c).arena = st.arena := (getClass_frame st s c).1

theorem getClass_classes (st : DocState) (s : String) (c : Nat) :
    (getClass st s c).classes = st.classes := (getClass_frame st s c).2.1

theorem getClass_modules (st : DocState) (s : String) (c : Nat) :
    (getClass st s c).modules = st.modules := (getClass_frame st s c).2.2.1

theorem getClass_functions (st : DocState) (s : String) (c : Nat) :
    (getClass st s c).functions = st.functions := (getClass_frame st s c).2.2.2.1

theorem getClass_constants (st : DocState) (s : String) (c : Nat) :
    (getClass st s c).constants = st.constants := (getClass_frame st s c).2.2.2.2.1

theorem getClass_misc (st : DocState) (s : String) (c : Nat) :
    (getClass st s c).misc = st.misc := (getClass_frame st s c).2.2.2.2.2.1

theorem getClass_verbose (st : DocState) (s : String) (c : Nat) :
    (getClass st s c).verbose = st.verbose := (getClass_frame st s c).2.2.2.2.2.2.2

set_option maxHeartbeats 2000000 in
/-- One-step characterization of processTag: the category maps, misc list,
verbose flag and arena length are untouched, and the name, types and
isIgnored fields of the entity being built change exactly as the matching
switch case dictates. -/
theorem processTag_char (st : DocState) (i : Nat) (t : Tag)
    (h : i < st.arena.length) :
    (processTag st i t).classes = st.classes ∧
    (processTag st i t).modules = st.modules ∧
    (processTag st i t).functions = st.functions ∧
    (processTag st i t).constants = st.constants ∧
    (processTag st i t).misc = st.misc ∧
    (processTag st i t).verbose = st.verbose ∧
    (processTag st i t).arena.length = st.arena.length ∧
    (entAt (processTag st i t).arena i).name =
      (if t.type = "name" then t.string else (entAt st.arena i).name) ∧
    (entAt (processTag st i t).arena i).types =
      (entAt st.arena i).types ++ (if t.type = "type" then t.types else []) ∧
    (entAt (processTag st i t).arena i).isIgnored =
      ((entAt st.arena i).isIgnored || (t.type = "ignore")) := by
  by_cases h1 : t.type = "class"
  · simp [processTag, h1, setEnt, entAt_set_self, h, getClass_arena, getClass_classes, getClass_modules, getClass_functions, getClass_constants, getClass_misc, getClass_verbose]
  by_cases h2 : t.type = "module"
  · simp [processTag, h1, h2, setEnt, entAt_set_self, h, getClass_arena, getClass_classes, getClass_modules, getClass_functions, getClass_constants, getClass_misc, getClass_verbose]
  by_cases h3 : t.type = "function"
  · simp [processTag, h1, h2, h3, setEnt, entAt_set_self, h, getClass_arena, getClass_classes, getClass_modules, getClass_functions, getClass_constants, getClass_misc, getClass_verbose]
  by_cases h4 : t.type = "constant"
  · simp [processTag, h1, h2, h3, h4, setEnt, entAt_set_self, h, getClass_arena, getClass_classes, getClass_modules, getClass_functions, getClass_constants, getClass_misc, getClass_verbose]
  by_cases h5 : t.type = "enum"
  · simp [processTag, h1, h2, h3, h4, h5, setEnt, entAt_set_self, h, getClass_arena, getClass_classes, getClass_modules, getClass_functions, getClass_constants, getClass_misc, getClass_verbose]
  by_cases h6 : t.type = "ignore"
  · simp [processTag, h1, h2, h3, h4, h5, h6, setEnt, entAt_set_self, h, getClass_arena, getClass_classes, getClass_modules, getClass_functions, getClass_constants, getClass_misc, getClass_verbose]
  by_cases h7 : t.type = "private"
  · simp [processTag, h1, h2, h3, h4, h5, h6, h7, setEnt, entAt_set_self, h, getClass_arena, getClass_classes, getClass_modules, getClass_functions, getClass_constants, getClass_misc, getClass_verbose]
  by_cases h8 : t.type = "name"
  · simp [processTag, h1, h2, h3, h4, h5, h6, h7, h8, setEnt, entAt_set_self, h, getClass_arena, getClass_classes, getClass_modules, getClass_functions, getClass_constants, getClass_misc, getClass_verbose]
  by_cases h9 : t.type = "type"
  · simp [processTag, h1, h2, h3, h4, h5, h6, h7, h8, h9, setEnt, entAt_set_self, h, getClass_arena, getClass_classes, getClass_modules, getClass_functions, getClass_constants, getClass_misc, getClass_verbose]
  by_cases h10 : t.type = "see"
  · simp [processTag, h1, h2, h3, h4, h5, h6, h7, h8, h9, h10, setEnt, entAt_set_self, h, getClass_arena, getClass_classes, getClass_modules, getClass_functions, getClass_constants, getClass_misc, getClass_verbose]
  by_cases h11 : t.type = "default"
  · simp [processTag, h1, h2, h3, h4, h5, h6, h7, h8, h9, h10, h11, setEnt, entAt_set_self, h, getClass_arena, getClass_classes, getClass_modules, getClass_functions, getClass_constants, getClass_misc, getClass_verbose]
  by_cases h12 : t.type = "param"
  · simp [processTag, h1, h2, h3, h4, h5, h6, h7, h8, h9, h10, h11, h12, setEnt, entAt_set_self, h, getClass_arena, getClass_classes, getClass_modules, getClass_functions, getClass_constants, getClass_misc, getClass_verbose]
  by_cases h13 : t.type = "return"
  · simp [processTag, h1, h2, h3, h4, h5, h6, h7, h8, h9, h10, h11, h12, h13, setEnt, entAt_set_self, h, getClass_arena, getClass_classes, getClass_modules, getClass_functions, getClass_constants, getClass_misc, getClass_verbose]
  by_cases h14 : t.type = "memberOf"
  · simp [processTag, h1, h2, h3, h4, h5, h6, h7, h8, h9, h10, h11, h12, h13, h14, setEnt, entAt_set_self, h, getClass_arena, getClass_classes, getClass_modules, getClass_functions, getClass_constants, getClass_misc, getClass_verbose]
  by_cases h15 : t.type = "kind"
  · by_cases k1 : t.string = "class"
    · simp [processTag, h1, h2, h3, h4, h5, h6, h7, h8, h9, h10, h11, h12, h13, h14, h15, k1, setEnt, entAt_set_self, h, getClass_arena, getClass_classes, getClass_modules, getClass_functions, getClass_constants, getClass_misc, getClass_verbose]
    by_cases k2 : t.string = "function"
    · simp [processTag, h1, h2, h3, h4, h5, h6, h7, h8, h9, h10, h11, h12, h13, h14, h15, k1, k2, setEnt, entAt_set_self, h, getClass_arena, getClass_classes, getClass_modules, getClass_functions, getClass_constants, getClass_misc, getClass_verbose]
    by_cases k3 : t.string = "constant"
    · simp [processTag, h1, h2, h3, h4, h5, h6, h7, h8, h9, h10, h11, h12, h13, h14, h15, k1, k2, k3, setEnt, entAt_set_self, h, getClass_arena, getClass_classes, getClass_modules, getClass_functions, getClass_constants, getClass_misc, getClass_verbose]
    by_cases k4 : t.string = "enum"
    · simp [processTag, h1, h2, h3, h4, h5, h6, h7, h8, h9, h10, h11, h12, h13, h14, h15, k1, k2, k3, k4, setEnt, entAt_set_self, h, getClass_arena, getClass_classes, getClass_modules, getClass_functions, getClass_constants, getClass_misc, getClass_verbose]
    simp [processTag, h1, h2, h3, h4, h5, h6, h7, h8, h9, h10, h11, h12, h13, h14, h15, k1, k2, k3, k4, setEnt, entAt_set_self, h, getClass_arena, getClass_classes, getClass_modules, getClass_functions, getClass_constants, getClass_misc, getClass_verbose]
  simp [processTag, h1, h2, h3, h4, h5, h6, h7, h8, h9, h10, h11, h12, h13, h14, h15, setEnt, entAt_set_self, h, getClass_arena, getClass_classes, getClass_modules, getClass_functions, getClass_constants, getClass_misc, getClass_verbose]


theorem processTags_cons (st : DocState) (i : Nat) (t : Tag) (ts : List Tag) :
    processTags st i (t :: ts) = processTags (processTag st i t) i ts := rfl

theorem processTags_concat (st : DocState) (i : Nat) (ts : List Tag) (t : Tag) :
    processTags st i (ts ++ [t]) = processTag (processTags st i ts) i t := by
  simp [processTags, List.foldl_append]

/-- processTags leaves the category maps, the misc list, the verbose flag
and the arena length unchanged. -/
theorem processTags_frame (st : DocState) (i : Nat) (ts : List Tag)
    (h : i < st.arena.length) :
    (processTags st i ts).classes = st.classes ∧
    (processTags st i ts).modules = st.modules ∧
    (processTags st i ts).functions = st.functions ∧
    (processTags st i ts).constants = st.constants ∧
    (processTags st i ts).misc = st.misc ∧
    (processTags st i ts).verbose = st.verbose ∧
    (processTags st i ts).arena.length = st.arena.length := by
  induction ts generalizing st with
  | nil => exact ⟨rfl, rfl, rfl, rfl, rfl, rfl, rfl⟩
  | cons t ts ih =>
    have hc := processTag_char st i t h
    have h2 : i < (processTag st i t).arena.length := by
      rw [hc.2.2.2.2.2.2.1]; exact h
    have hr := ih (processTag st i t) h2
    rw [processTags_cons]
    exact ⟨hr.1.trans hc.1, hr.2.1.trans hc.2.1, hr.2.2.1.trans hc.2.2.1,
      hr.2.2.2.1.trans hc.2.2.2.1, hr.2.2.2.2.1.trans hc.2.2.2.2.1,
      hr.2.2.2.2.2.1.trans hc.2.2.2.2.2.1,
      hr.2.2.2.2.2.2.trans hc.2.2.2.2.2.2.1⟩

/-- The ignore flag after processTags: set iff it was set before or some
tag in the list is an ignore tag. -/
theorem processTags_isIgnored (st : DocState) (i : Nat) (ts : List Tag)
    (h : i < st.arena.length) :
    (entAt (processTags st i ts).arena i).isIgnored =
      ((entAt st.arena i).isIgnored || ts.any (fun t => t.type = "ignore")) := by
  induction ts generalizing st with
  | nil => simp [processTags]
  | cons t ts ih =>
    have hc := processTag_char st i t h
    have h2 : i < (processTag st i t).arena.length := by
      rw [hc.2.2.2.2.2.2.1]; exact h
    rw [processTags_cons, ih _ h2, hc.2.2.2.2.2.2.2.2.2]
    simp [Bool.or_assoc]

/-- The types list after processTags: the previous list extended by the
payloads of all type tags, concatenated in tag order. -/
theorem processTags_types (st : DocState) (i : Nat) (ts : List Tag)
    (h : i < st.arena.length) :
    (entAt (processTags st i ts).arena i).types =
      (entAt st.arena i).types ++
        (ts.filter (fun t => t.type = "type")).flatMap Tag.types := by
  induction ts generalizing st with
  | nil => simp [processTags]
  | cons t ts ih =>
    have hc := processTag_char st i t h
    have h2 : i < (processTag st i t).arena.length := by
      rw [hc.2.2.2.2.2.2.1]; exact h
    rw [processTags_cons, ih _ h2, hc.2.2.2.2.2.2.2.2.1]
    by_cases ht : t.type = "type"
    · simp [ht, List.filter_cons]
    · simp [ht, List.filter_cons]

/-- The name after processTags: the payload of the last name tag when one
exists (last write wins). -/
theorem processTags_name (st : DocState) (i : Nat) (ts : List Tag) (t0 : Tag)
    (h : i < st.arena.length)
    (hl : (ts.filter (fun t => t.type = "name")).getLast? = some t0) :
    (entAt (processTags st i ts).arena i).name = t0.string := by
  induction ts using List.reverseRecOn generalizing st t0 with
  | nil => simp at hl
  | append_singleton ts t ih =>
    have hlen : i < (processTags st i ts).arena.length := by
      rw [(processTags_frame st i ts h).2.2.2.2.2.2]; exact h
    have hc := processTag_char (processTags st i ts) i t hlen
    rw [processTags_concat, hc.2.2.2.2.2.2.2.1]
    rw [List.filter_append] at hl
    by_cases ht : t.type = "name"
    · rw [if_pos ht]
      have hft : List.filter (fun t => t.type = "name") [t] = [t] := by
        simp [List.filter_cons, ht]
      rw [hft, List.getLast?_concat] at hl
      rw [Option.some_inj.mp hl]
    · rw [if_neg ht]
      have hft : List.filter (fun t => t.type = "name") [t] = [] := by
        simp [List.filter_cons, ht]
      rw [hft, List.append_nil] at hl
      exact ih st t0 h hl

/-- The getFirstChild reduce stays none over children none of which carries
the searched name. -/
theorem foldl_childMatch_no_match (arena : List Entity) (x : String)
    (l : List Nat) (h : ∀ j ∈ l, entName arena j ≠ x) :
    l.foldl (childMatch arena x) none = none := by
  induction l with
  | nil => rfl
  | cons a l ih =>
    have ha : entName arena a ≠ x := h a (List.mem_cons_self a l)
    rw [List.foldl_cons]
    have hstep : childMatch arena x none a = none := by simp [childMatch, ha]
    rw [hstep]
    exact ih (fun j hj => h j (List.mem_cons_of_mem a hj))

/-- Once the getFirstChild reduce holds a child carrying the searched name,
later children never displace it. -/
theorem foldl_childMatch_keep (arena : List Entity) (x : String) (p : Nat)
    (hp : entName arena p = x) (l : List Nat) :
    l.foldl (childMatch arena x) (some p) = some p := by
  induction l with
  | nil => rfl
  | cons a l ih =>
    rw [List.foldl_cons]
    have hstep : childMatch arena x (some p) a = some p := by
      simp [childMatch, hp]
    rw [hstep]
    exact ih

/-- getFirstChild returns the earliest child carrying the searched name. -/
theorem getFirstChild_earliest (arena : List Entity) (a : Nat) (B : String)
    (l1 l2 : List Nat) (j : Nat)
    (hch : (entAt arena a).children = l1 ++ j :: l2)
    (hj : entName arena j = B)
    (hl1 : ∀ k ∈ l1, entName arena k ≠ B) :
    getFirstChild arena a B = some j := by
  unfold getFirstChild
  rw [hch, List.foldl_append, foldl_childMatch_no_match arena B l1 hl1,
    List.foldl_cons]
  have hstep : childMatch arena B none j = some j := by simp [childMatch, hj]
  rw [hstep]
  exact foldl_childMatch_keep arena B j hj l2

/-! ### Claim theorems -/

/-- C9: for every entity and every name x, getFirstChild x returns a none
value (not an error) when no child named x exists, and getLastChild x
symmetrically returns a none value when no child named x exists. -/
theorem c9_get_child_none (arena : List Entity) (i : Nat) (x : String)
    (h : ∀ j ∈ (entAt arena i).children, entName arena j ≠ x) :
    getFirstChild arena i x = none ∧ getLastChild arena i x = none := by
  refine ⟨foldl_childMatch_no_match arena x _ h, ?_⟩
  exact foldl_childMatch_no_match arena x _
    (fun j hj => h j (List.mem_reverse.mp hj))

/-- Witness for C9 at a concrete arena: entity 0 has one child, named a,
and lookups for b return none. -/
theorem c9_witness :
    (∀ j ∈ (entAt [{ children := [1] }, { name := "a" }] 0).children,
      entName [{ children := [1] }, { name := "a" }] j ≠ "b") ∧
    (getFirstChild [{ children := [1] }, { name := "a" }] 0 "b" = none ∧
     getLastChild [{ children := [1] }, { name := "a" }] 0 "b" = none) :=
  ⟨by decide, c9_get_child_none [{ children := [1] }, { name := "a" }] 0 "b"
    (by decide)⟩

/-- C5: for a dotted reference A.B where A is a known top-level class or
module and A has a child named B at walk time, getClass resolves to the
earliest-appended child of A named B (even when several children share
the name B) and schedules exactly the attach of the dependent entity to
that child. -/
theorem c5_dotted_earliest_child (st : DocState) (className : String)
    (c : Nat) (A B : String) (a j : Nat) (l1 l2 : List Nat)
    (hsplit : splitName className = [A, B])
    (hA : mapFind st.classes A = some a ∨
      (mapFind st.classes A = none ∧ mapFind st.modules A = some a))
    (hch : (entAt st.arena a).children = l1 ++ j :: l2)
    (hj : entName st.arena j = B)
    (hl1 : ∀ k ∈ l1, entName st.arena k ≠ B) :
    getClass st className c =
      { st with microtasks := st.microtasks ++ [(j, c)] } := by
  have hfc := getFirstChild_earliest st.arena a B l1 l2 j hch hj hl1
  have hwalk : walkPartsAux st.arena [A] a [B] = (some j, []) := by
    unfold walkPartsAux
    rw [hfc]
    rfl
  have hg : getClass st className c = resolveWalk st A a [B] c := by
    unfold getClass
    simp only [hsplit]
    rcases hA with h | ⟨h0, h⟩
    · simp only [h]
    · simp only [h0, h]
  rw [hg]
  unfold resolveWalk
  simp only [hwalk]

/-- Witness for C5: class Outer with two children named inner; resolution
of Outer.inner picks the earliest (index 1). -/
theorem c5_witness :
    splitName "Outer.inner" = ["Outer", "inner"] ∧
    getClass
      { arena := [{ name := "Outer", children := [1, 2] },
                  { name := "inner" }, { name := "inner" }],
        classes := [("Outer", 0)] } "Outer.inner" 7 =
      { arena := [{ name := "Outer", children := [1, 2] },
                  { name := "inner" }, { name := "inner" }],
        classes := [("Outer", 0)], microtasks := [(1, 7)] } := by
  refine ⟨by decide, ?_⟩
  exact c5_dotted_earliest_child
    { arena := [{ name := "Outer", children := [1, 2] },
                { name := "inner" }, { name := "inner" }],
      classes := [("Outer", 0)] }
    "Outer.inner" 7 "Outer" "inner" 0 1 [] [2]
    (by decide) (Or.inl (by decide)) (by decide) (by decide) (by decide)

/-- C6: for a dotted reference whose first segment is a known class or
module but whose walk fails on a later segment, getClass schedules no
attach, registers no subscription, and changes no entity: the resolution
never completes and the dependent entity keeps its unset parent (only the
TODO console log is emitted). -/
theorem c6_missing_segment_pending (st : DocState) (className : String)
    (c : Nat) (nm : String) (rest : List String) (a : Nat)
    (hsplit : splitName className = nm :: rest)
    (hA : mapFind st.classes nm = some a ∨
      (mapFind st.classes nm = none ∧ mapFind st.modules nm = some a))
    (hwalk : (walkPartsAux st.arena [nm] a rest).1 = none) :
    (getClass st className c).arena = st.arena ∧
    (getClass st className c).microtasks = st.microtasks ∧
    (getClass st className c).subs = st.subs ∧
    (getClass st className c).classes = st.classes ∧
    (getClass st className c).modules = st.modules ∧
    (getClass st className c).functions = st.functions ∧
    (getClass st className c).constants = st.constants ∧
    (getClass st className c).misc = st.misc ∧
    (getClass st className c).warnings = st.warnings := by
  have hg : getClass st className c = resolveWalk st nm a rest c := by
    unfold getClass
    simp only [hsplit]
    rcases hA with h | ⟨h0, h⟩
    · simp only [h]
    · simp only [h0, h]
  rw [hg]
  unfold resolveWalk
  cases hpair : walkPartsAux st.arena [nm] a rest with
  | mk o ls =>
    rw [hpair] at hwalk
    simp only at hwalk
    subst hwalk
    exact ⟨rfl, rfl, rfl, rfl, rfl, rfl, rfl, rfl, rfl⟩

/-- Witness for C6: Outer exists but has no child, so Outer.Inner.deep
stalls with no state change but the log. -/
theorem c6_witness :
    splitName "Outer.Inner.deep" = ["Outer", "Inner", "deep"] ∧
    (walkPartsAux [{ name := "Outer" }] ["Outer"] 0 ["Inner", "deep"]).1 =
      none ∧
    (getClass
      { arena := [{ name := "Outer" }],
        classes := [("Outer", 0)] } "Outer.Inner.deep" 3).microtasks = [] := by
  refine ⟨by decide, by decide, ?_⟩
  have h := c6_missing_segment_pending
    { arena := [{ name := "Outer" }], classes := [("Outer", 0)] }
    "Outer.Inner.deep" 3 "Outer" ["Inner", "deep"] 0
    (by decide) (Or.inl (by decide)) (by decide)
  exact h.2.1

/-- C8: a tag whose kind is outside the recognized set, and a kind tag
whose string value is not class, function, constant or enum, are
non-fatal: the state is unchanged except for one appended warning, so no
entity field or kind flag changes and processing continues. -/
theorem c8_unrecognized_nonfatal (st : DocState) (i : Nat) (t : Tag) :
    (t.type ∉ recognizedTags →
      processTag st i t =
        { st with warnings := st.warnings ++ ["Unrecognized tag: " ++ t.type] }) ∧
    (t.type = "kind" → t.string ∉ ["class", "function", "constant", "enum"] →
      processTag st i t =
        { st with
          warnings := st.warnings ++ ["Unrecognized kind: " ++ t.string] }) := by
  constructor
  · intro h
    simp only [recognizedTags, List.mem_cons, List.not_mem_nil, or_false,
      not_or] at h
    obtain ⟨n1, n2, n3, n4, n5, n6, n7, n8, n9, n10, n11, n12, n13, n14, n15⟩ := h
    simp [processTag, n1, n2, n3, n4, n5, n6, n7, n8, n9, n10, n11, n12, n13,
      n14, n15]
  · intro hk hs
    simp only [List.mem_cons, List.not_mem_nil, or_false, not_or] at hs
    obtain ⟨s1, s2, s3, s4⟩ := hs
    simp [processTag, hk, s1, s2, s3, s4]

/-- Witness for C8 at a concrete unknown tag and a concrete unknown kind
string. -/
theorem c8_witness :
    ("bogus" : String) ∉ recognizedTags ∧
    processTag {} 0 { type := "bogus" } =
      { warnings := ["Unrecognized tag: bogus"] } ∧
    processTag {} 0 { type := "kind", string := "widget" } =
      { warnings := ["Unrecognized kind: widget"] } := by
  refine ⟨by decide, ?_, ?_⟩
  · exact (c8_unrecognized_nonfatal {} 0 { type := "bogus" }).1 (by decide)
  · exact (c8_unrecognized_nonfatal {} 0 { type := "kind", string := "widget" }).2
      rfl (by decide)

/-- C7: over any tag list, repeated name tags overwrite the name field
(the last one wins) while repeated type tags concatenate onto the types
list in tag order. -/
theorem c7_name_overwrites_types_concat (st : DocState) (i : Nat)
    (ts : List Tag) (h : i < st.arena.length) :
    (entAt (processTags st i ts).arena i).types =
      (entAt st.arena i).types ++
        (ts.filter (fun t => t.type = "type")).flatMap Tag.types ∧
    (∀ t0, (ts.filter (fun t => t.type = "name")).getLast? = some t0 →
      (entAt (processTags st i ts).arena i).name = t0.string) :=
  ⟨processTags_types st i ts h,
   fun t0 hl => processTags_name st i ts t0 h hl⟩

/-- Witness for C7: two name tags (b wins) and two type tags (payloads
concatenate in order). -/
theorem c7_witness :
    (0 : Nat) < ([{}] : List Entity).length ∧
    (entAt (processTags { arena := [{}] } 0
      [nameTag "a", { type := "type", types := ["X"] }, nameTag "b",
       { type := "type", types := ["Y", "Z"] }]).arena 0).types =
      ["X", "Y", "Z"] ∧
    (entAt (processTags { arena := [{}] } 0
      [nameTag "a", { type := "type", types := ["X"] }, nameTag "b",
       { type := "type", types := ["Y", "Z"] }]).arena 0).name = "b" := by
  have h := c7_name_overwrites_types_concat { arena := [{}] } 0
    [nameTag "a", { type := "type", types := ["X"] }, nameTag "b",
     { type := "type", types := ["Y", "Z"] }] (by decide)
  refine ⟨by decide, ?_, ?_⟩
  · rw [h.1]
    decide
  · rw [h.2 (nameTag "b") (by decide)]
    decide

/-- C4: a comment whose tag list carries an ignore tag is dropped at
ingestion: processing it changes none of the classes, modules, functions
or constants maps nor the misc list, whatever other kind flags it
carries. -/
theorem c4_ignored_never_stored (st : DocState) (c : Comment)
    (hig : "ignore" ∈ c.tags.map Tag.type) :
    (processComment st c).classes = st.classes ∧
    (processComment st c).modules = st.modules ∧
    (processComment st c).functions = st.functions ∧
    (processComment st c).constants = st.constants ∧
    (processComment st c).misc = st.misc := by
  have hlen : st.arena.length <
      ({ st with arena := st.arena ++ [initEntity c] } : DocState).arena.length := by
    simp
  have hany : c.tags.any (fun t => t.type = "ignore") = true := by
    rw [List.any_eq_true]
    obtain ⟨t, ht, htype⟩ := List.mem_map.mp hig
    exact ⟨t, ht, by simp [htype]⟩
  have hi : (entAt (processTags { st with arena := st.arena ++ [initEntity c] }
      st.arena.length c.tags).arena st.arena.length).isIgnored = true := by
    rw [processTags_isIgnored _ _ _ hlen]
    have harena : entAt ({ st with arena := st.arena ++ [initEntity c] } :
        DocState).arena st.arena.length = initEntity c :=
      entAt_concat_length st.arena (initEntity c)
    rw [harena, hany]
    simp [initEntity]
  have hpc : processComment st c =
      processTags { st with arena := st.arena ++ [initEntity c] }
        st.arena.length c.tags := by
    unfold processComment
    simp [hi]
  rw [hpc]
  have hf := processTags_frame { st with arena := st.arena ++ [initEntity c] }
    st.arena.length c.tags hlen
  exact ⟨hf.1, hf.2.1, hf.2.2.1, hf.2.2.2.1, hf.2.2.2.2.1⟩

/-- Witness for C4: a comment tagged both class and ignore stores
nothing. -/
theorem c4_witness :
    ("ignore" : String) ∈
      (Comment.tags { tags := [kindTag "class", nameTag "X", kindTag "ignore"] }).map
        Tag.type ∧
    (processComment {} { tags := [kindTag "class", nameTag "X", kindTag "ignore"] }).classes = [] ∧
    (processComment {} { tags := [kindTag "class", nameTag "X", kindTag "ignore"] }).misc = [] := by
  have h := c4_ignored_never_stored {}
    { tags := [kindTag "class", nameTag "X", kindTag "ignore"] } (by decide)
  exact ⟨by decide, h.1, h.2.2.2.2⟩

theorem entAt_set_ne (arena : List Entity) (i j : Nat) (e : Entity)
    (h : i ≠ j) : entAt (arena.set j e) i = entAt arena i := by
  simp [entAt, List.getElem?_set_ne (Ne.symm h)]

/-- C1: the claim says the scheduled resolution leaves C exactly once in
the children sequence of P and sets the parent back-reference of C to P.
The code attaches the child exactly once but never sets the
back-reference: child._parent = this in addChild writes to a
non-writable property in sloppy mode and silently does nothing.  First
conjunct: the concrete parent-before-child stream shows the divergence
(child attached once, parent still none).  Second conjunct: addChild
leaves the parent back-reference of every entity unchanged, at every
input, so no run can ever set it. -/
theorem c1_parent_backref_never_set :
    ((entAt (runDoc [catComment "class" "Foo" "",
        fnMemberComment "f" "Foo"]).arena 0).children.count 1 = 1 ∧
     (entAt (runDoc [catComment "class" "Foo" "",
        fnMemberComment "f" "Foo"]).arena 1).parent = none) ∧
    (∀ (arena : List Entity) (a b c : Nat),
      (entAt (addChild arena a b) c).parent = (entAt arena c).parent) := by
  constructor
  · constructor <;> decide
  · intro arena a b c
    by_cases hac : a = c
    · subst hac
      by_cases hlt : a < arena.length
      · unfold addChild
        rw [entAt_set_self _ a _ hlt]
      · unfold addChild
        rw [List.set_eq_of_length_le (Nat.le_of_not_lt hlt)]
    · unfold addChild
      rw [entAt_set_ne _ c a _ (fun h => hac h.symm)]

/-- C2: for a single-segment parent name that collides with no Object
prototype member, the attach outcome is independent of the ingestion
order of child C (a function carrying a memberOf tag naming P) and
parent P (a top-level class with no declared parent): in the child-first
stream and in the parent-first stream alike, once resolution has run C
occurs exactly once in the children sequence of P. -/
theorem c2_attach_order_independent (p f : String)
    (hp : splitName p = [p]) (hkp : p ∉ objectPrototypeKeys) :
    (entAt (runDoc [fnMemberComment f p,
      catComment "class" p ""]).arena 1).children.count 0 = 1 ∧
    (entAt (runDoc [catComment "class" p "",
      fnMemberComment f p]).arena 0).children.count 1 = 1 := by
  have hkpb : decide (p ∈ objectPrototypeKeys) = false := decide_eq_false hkp
  constructor <;>
  cases hfb : decide (f ∈ objectPrototypeKeys) <;>
  simp [runDoc, processSource, processComment, processTags, processTag,
    catComment, fnMemberComment, fnComment, kindTag, nameTag, memberOfTag,
    initEntity, setEnt, entAt, mapFind, jsIn, hkpb, hfb,
    getClass, hp, resolveWalk, walkPartsAux, publish, fireSub, runTasks,
    addChild, entName, childMatch, getFirstChild]

/-- Witness for C2 at concrete names Foo and f. -/
theorem c2_witness :
    splitName "Foo" = ["Foo"] ∧ ("Foo" : String) ∉ objectPrototypeKeys ∧
    ((entAt (runDoc [fnMemberComment "f" "Foo",
        catComment "class" "Foo" ""]).arena 1).children.count 0 = 1 ∧
     (entAt (runDoc [catComment "class" "Foo" "",
        fnMemberComment "f" "Foo"]).arena 0).children.count 1 = 1) :=
  ⟨by decide, by decide,
   c2_attach_order_independent "Foo" "f" (by decide) (by decide)⟩

/-- C3 counterexample: at the name toString the claim fails on the code.
Two class comments named toString are ingested, yet the classes map
retains neither (and misc stays empty): the store guard `name in classes`
consults the Object prototype chain, where toString is always present, so
the first arrival is not retained, contradicting the claim that exactly
the first entity in arrival order is retained in the map. -/
theorem c3_proto_name_counterexample :
    (runDoc [catComment "class" "toString" "a",
      catComment "class" "toString" "b"]).classes = [] ∧
    (runDoc [catComment "class" "toString" "a",
      catComment "class" "toString" "b"]).misc = [] := by
  constructor <;> decide

/-- C3 amended: for every name that collides with no Object prototype
member, in every category map, when two ingested comments classify into
the same category with the same name, exactly the first in arrival order
is retained (the map holds one entry, pointing at the first entity, whose
fields such as description are those of the first comment) and the second
is discarded without any warning or error. -/
theorem c3_first_wins (n d1 d2 : String)
    (hkn : n ∉ objectPrototypeKeys) :
    ((runDoc [catComment "class" n d1, catComment "class" n d2]).classes =
        [(n, 0)] ∧
     (entAt (runDoc [catComment "class" n d1,
        catComment "class" n d2]).arena 0).description = d1 ∧
     (runDoc [catComment "class" n d1, catComment "class" n d2]).warnings =
        []) ∧
    ((runDoc [catComment "module" n d1, catComment "module" n d2]).modules =
        [(n, 0)] ∧
     (entAt (runDoc [catComment "module" n d1,
        catComment "module" n d2]).arena 0).description = d1 ∧
     (runDoc [catComment "module" n d1, catComment "module" n d2]).warnings =
        []) ∧
    ((runDoc [catComment "function" n d1,
        catComment "function" n d2]).functions = [(n, 0)] ∧
     (entAt (runDoc [catComment "function" n d1,
        catComment "function" n d2]).arena 0).description = d1 ∧
     (runDoc [catComment "function" n d1,
        catComment "function" n d2]).warnings = []) ∧
    ((runDoc [catComment "constant" n d1,
        catComment "constant" n d2]).constants = [(n, 0)] ∧
     (entAt (runDoc [catComment "constant" n d1,
        catComment "constant" n d2]).arena 0).description = d1 ∧
     (runDoc [catComment "constant" n d1,
        catComment "constant" n d2]).warnings = []) := by
  have hknb : decide (n ∈ objectPrototypeKeys) = false := decide_eq_false hkn
  refine ⟨⟨?_, ?_, ?_⟩, ⟨?_, ?_, ?_⟩, ⟨?_, ?_, ?_⟩, ⟨?_, ?_, ?_⟩⟩ <;>
  simp [runDoc, processSource, processComment, processTags, processTag,
    catComment, fnMemberComment, fnComment, kindTag, nameTag, memberOfTag,
    initEntity, setEnt, entAt, mapFind, jsIn, hknb,
    getClass, resolveWalk, walkPartsAux, publish, fireSub, runTasks,
    addChild, entName, childMatch, getFirstChild]

/-- Witness for C3 at the concrete name Foo: the class stream retains the
first comment only. -/
theorem c3_witness :
    ("Foo" : String) ∉ objectPrototypeKeys ∧
    ((runDoc [catComment "class" "Foo" "a",
        catComment "class" "Foo" "b"]).classes = [("Foo", 0)] ∧
     (entAt (runDoc [catComment "class" "Foo" "a",
        catComment "class" "Foo" "b"]).arena 0).description = "a" ∧
     (runDoc [catComment "class" "Foo" "a",
        catComment "class" "Foo" "b"]).warnings = []) :=
  ⟨by decide, (c3_first_wins "Foo" "a" "b" (by decide)).1⟩

/-- C10: a duplicate-named comment (duplicating a name genuinely claimed
in its category map, so neither name collides with an Object prototype
member) is dropped only from its category map; its memberOf side effect
already ran at construction, so the dropped entity still ends up in the
children sequence of its resolved parent even though no category map and
not the misc list stores it. -/
theorem c10_dropped_duplicate_attached (p f : String)
    (hp : splitName p = [p]) (hkp : p ∉ objectPrototypeKeys)
    (hkf : f ∉ objectPrototypeKeys) :
    (runDoc [catComment "class" p "", fnComment f,
      fnMemberComment f p]).functions = [(f, 1)] ∧
    (runDoc [catComment "class" p "", fnComment f,
      fnMemberComment f p]).classes = [(p, 0)] ∧
    (entAt (runDoc [catComment "class" p "", fnComment f,
      fnMemberComment f p]).arena 0).children = [2] ∧
    (runDoc [catComment "class" p "", fnComment f,
      fnMemberComment f p]).misc = [] := by
  have hkpb : decide (p ∈ objectPrototypeKeys) = false := decide_eq_false hkp
  have hkfb : decide (f ∈ objectPrototypeKeys) = false := decide_eq_false hkf
  refine ⟨?_, ?_, ?_, ?_⟩ <;>
  simp [runDoc, processSource, processComment, processTags, processTag,
    catComment, fnMemberComment, fnComment, kindTag, nameTag, memberOfTag,
    initEntity, setEnt, entAt, mapFind, jsIn, hkpb,
    hkfb, getClass, hp, resolveWalk, walkPartsAux, publish, fireSub,
    runTasks, addChild, entName, childMatch, getFirstChild]

/-- Witness for C10 at concrete names Foo and f. -/
theorem c10_witness :
    splitName "Foo" = ["Foo"] ∧ ("Foo" : String) ∉ objectPrototypeKeys ∧
    ("f" : String) ∉ objectPrototypeKeys ∧
    ((runDoc [catComment "class" "Foo" "", fnComment "f",
        fnMemberComment "f" "Foo"]).functions = [("f", 1)] ∧
     (runDoc [catComment "class" "Foo" "", fnComment "f",
        fnMemberComment "f" "Foo"]).classes = [("Foo", 0)] ∧
     (entAt (runDoc [catComment "class" "Foo" "", fnComment "f",
        fnMemberComment "f" "Foo"]).arena 0).children = [2] ∧
     (runDoc [catComment "class" "Foo" "", fnComment "f",
        fnMemberComment "f" "Foo"]).misc = []) :=
  ⟨by decide, by decide, by decide,
   c10_dropped_duplicate_attached "Foo" "f" (by decide) (by decide)
     (by decide)⟩

end Dotdox
